import Mathlib

/-!
Verification of `trend_v1_to_opencti.py`, a polling connector that fetches
Trend Vision One threat-intel feeds and imports them into OpenCTI as STIX
bundles.  The Python program is shallowly embedded: JSON values become the
inductive type `J`; the pure helpers (`extract_items`,
`flatten_objects_from_items`, `chunked_bundles`) are translated directly;
the network-facing functions (`get_json`, `collect_all`, `run_once`) are
translated with the HTTP layer abstracted as an explicit oracle (a function
from request to response), and loops that Python bounds only by server
behaviour take explicit fuel.
-/

set_option maxHeartbeats 1000000

/-- Model of a Python/JSON value as handled by the script.  Python `None`
(JSON `null`) is `J.null`; dicts are association lists (Python dict keys are
unique, so first-match lookup below matches dict lookup). -/
inductive J where
  | null
  | str (s : String)
  | num (n : Int)
  | arr (xs : List J)
  | obj (fields : List (String × J))

/-- `payload.get(k)`: `none` models Python's `None` result for a missing key
or a non-dict receiver (the script only calls `.get` on values it has
checked with `isinstance(..., dict)`). -/
def J.lookup : J → String → Option J
  | .obj fs, k => fs.lookup k
  | _, _ => none

/-- Python truthiness for the JSON values the script tests with `if not x`. -/
def J.truthy : J → Bool
  | .null => false
  | .str s => !s.isEmpty
  | .num n => n != 0
  | .arr xs => !xs.isEmpty
  | .obj fs => !fs.isEmpty

/-- Does `needle` occur as a contiguous run inside `hay`? -/
def subOccurs (needle : List Char) : List Char → Bool
  | [] => needle.isEmpty
  | c :: rest => needle.isPrefixOf (c :: rest) || subOccurs needle rest

/-- `"needle" in hay` for strings (Python substring test). -/
def strContains (hay needle : String) : Bool :=
  subOccurs needle.data hay.data

/-- The single-quote character, used when building the contextual filter. -/
def squote : String := "\x27"

/-- `extract_items(payload)`: a bare list is returned as-is; a dict whose
`"value"` field is a list yields that list; anything else yields `None`. -/
def extract_items : J → Option (List J)
  | .arr xs => some xs
  | .obj fs =>
    match (J.obj fs).lookup "value" with
    | some (.arr xs) => some xs
    | _ => none
  | _ => none

/-- Rule D of `flatten_objects_from_items`: a raw `objects` list directly on
the item; anything else contributes nothing. -/
def flattenD (entry : J) : List J :=
  match entry.lookup "objects" with
  | some (.arr objs) => objs
  | _ => []

/-- Rule C: `entry["type"] == "bundle"` with a list-valued `objects`; on no
match fall through to rule D. -/
def flattenC (entry : J) : List J :=
  match entry.lookup "type", entry.lookup "objects" with
  | some (.str "bundle"), some (.arr objs) => objs
  | _, _ => flattenD entry

/-- Rule B: a dict-valued `content` holding either a bundle
(`content.type == "bundle"` with list `objects`) or a nested envelope
(`content.envelope.objects` a list); on no match fall through to rule C. -/
def flattenB (entry : J) : List J :=
  match entry.lookup "content" with
  | some content@(.obj _) =>
    (match content.lookup "type", content.lookup "objects" with
     | some (.str "bundle"), some (.arr objs) => objs
     | _, _ =>
       match content.lookup "envelope" with
       | some cenv@(.obj _) =>
         (match cenv.lookup "objects" with
          | some (.arr objs) => objs
          | _ => flattenC entry)
       | _ => flattenC entry)
  | _ => flattenC entry

/-- One entry of `flatten_objects_from_items`: rule A (a dict-valued
`envelope` with list `objects`) first, then rules B, C, D in source order,
first match wins; a non-dict entry contributes nothing (`continue`). -/
def flattenOne (entry : J) : List J :=
  match entry with
  | .obj _ =>
    match entry.lookup "envelope" with
    | some env@(.obj _) =>
      (match env.lookup "objects" with
       | some (.arr objs) => objs
       | _ => flattenB entry)
    | _ => flattenB entry
  | _ => []

/-- `flatten_objects_from_items(collected)`: concatenate each entry's
extraction, preserving order. -/
def flatten_objects_from_items (collected : List J) : List J :=
  collected.flatMap flattenOne

/-- The contiguous slices `all_objects[i:i+m]` for `i in range(0, len, m)`,
computed with explicit fuel so the function is structurally recursive.
Python raises `ValueError` for step 0; the configured maximum is a positive
int, and claims carry `m ≥ 1`, so the `0` cases (returning `[]`) are never
exercised. -/
def chunksOfAux (m : Nat) : Nat → List J → List (List J)
  | _, [] => []
  | 0, _ :: _ => []
  | fuel + 1, x :: xs =>
    match m with
    | 0 => []
    | m' + 1 => (x :: xs.take m') :: chunksOfAux m fuel (xs.drop m')

/-- The chunk slicing, with the fuel fixed to the list's length (each
iteration consumes at least one element, so this fuel always suffices). -/
def chunksOf (m : Nat) (l : List J) : List (List J) := chunksOfAux m l.length l

/-- Build one `{"type": "bundle", "id": "bundle--<uuid>", "objects": chunk}`
value. -/
def mkBundle (uuid : String) (chunk : List J) : J :=
  J.obj [("type", .str "bundle"), ("id", .str ("bundle--" ++ uuid)),
         ("objects", .arr chunk)]

/-- The loop body of `chunked_bundles`: one bundle per non-empty chunk, with
a fresh uuid per appended bundle (the supply index advances only when a
bundle is appended, matching the `continue` on an empty chunk). -/
def bundlesFrom (ids : Nat → String) : Nat → List (List J) → List J
  | _, [] => []
  | i, [] :: cs => bundlesFrom ids i cs
  | i, (x :: c) :: cs => mkBundle (ids i) (x :: c) :: bundlesFrom ids (i + 1) cs

/-- `chunked_bundles(all_objects)` with the module constant
`MAX_OBJECTS_PER_BUNDLE` passed as `maxPer` and the stream of `uuid4()`
draws passed as the supply `ids`. -/
def chunked_bundles (maxPer : Nat) (ids : Nat → String) (all_objects : List J) :
    List J :=
  match all_objects with
  | [] => []
  | _ :: _ => bundlesFrom ids 0 (chunksOf maxPer all_objects)

/-- The `objects` field of a bundle value (`b.get("objects", [])`). -/
def bundleObjs (b : J) : List J :=
  match b.lookup "objects" with
  | some (.arr xs) => xs
  | _ => []

/-- The `id` field of a bundle value. -/
def bundleId (b : J) : Option J := b.lookup "id"

/-! ## HTTP fetcher: `get_json` -/

/-- Query parameters as sent with a request (`params=None` is `none`). -/
abbrev Params := List (String × String)

/-- One HTTP response as the script observes it: status code, the
`Content-Type` header (defaulted to `""` when absent), the parsed JSON body
(consulted only on status 200 with a JSON content type) and the raw text
(consulted only in the fatal-status error message). -/
structure HResp where
  status : Nat
  contentType : String
  body : J
  text : String

/-- What one `session.get` call does: return a response, or raise a
network-level exception (connection reset, timeout, ...). -/
inductive FetchOutcome where
  | ok (r : HResp)
  | netErr (msg : String)

/-- Result of `get_json`: the parsed JSON value, or the message of the
exception that escaped (`RuntimeError` raised by `get_json` itself, or a
network exception propagating out of `session.get`). -/
inductive GetResult where
  | ok (v : J)
  | error (msg : String)

/-- The retry loop of `get_json`.  `respond i` is the outcome of the `i`-th
`session.get` call; the loop tracks the attempts made so far and the list of
`time.sleep(backoff)` delays performed, in order.  A network exception from
`session.get` is not caught anywhere in `get_json`, so it ends the loop at
once. -/
def getJsonAux (respond : Nat → FetchOutcome) :
    Nat → Nat → Nat → List Nat → GetResult × Nat × List Nat
  | 0, attempts, _, delays => (.error "Max retries exceeded", attempts, delays)
  | fuel + 1, attempts, backoff, delays =>
    match respond attempts with
    | .netErr msg => (.error msg, attempts + 1, delays)
    | .ok r =>
      if r.status = 200 then
        if strContains r.contentType "application/json" then
          (.ok r.body, attempts + 1, delays)
        else
          (.error ("Unexpected content-type: " ++ r.contentType),
           attempts + 1, delays)
      else if r.status = 204 then
        (.ok (J.obj [("value", .arr []), ("nextLink", .null)]),
         attempts + 1, delays)
      else if r.status ∈ ([429, 500, 502, 503, 504] : List Nat) then
        getJsonAux respond fuel (attempts + 1) (min (backoff * 2) 16)
          (delays ++ [backoff])
      else
        (.error ("HTTP " ++ toString r.status ++ ": " ++ r.text.take 1000),
         attempts + 1, delays)

/-- `get_json(session, url, headers, params, max_retries)`: the url, headers
and params fix the request, so the network is abstracted to the per-attempt
outcome function `respond`.  Returns (result, number of GET attempts made,
backoff delays slept). -/
def get_json (respond : Nat → FetchOutcome) (max_retries : Nat) :
    GetResult × Nat × List Nat :=
  getJsonAux respond max_retries 0 1 []

/-! ## Pagination collector: `collect_all` -/

def URL_PATH : String := "/v3.0/threatintel/feeds"

/-- The `nextLink` value of a payload (`payload.get("nextLink")` when the
payload is a dict, else `None`). -/
def nextLinkOf (payload : J) : J :=
  (payload.lookup "nextLink").getD J.null

/-- What one loop iteration of `collect_all` appends for a fetched payload:
the extracted array when `extract_items` recognizes one; otherwise, for a
dict payload, the payload itself minus its `nextLink` key as a single
synthetic item; otherwise nothing. -/
def pageItemsOf (payload : J) : List J :=
  match extract_items payload with
  | some arr => arr
  | none =>
    match payload with
    | .obj fs => [J.obj (fs.filter (fun kv => kv.1 != "nextLink"))]
    | _ => []

/-- Result of `collect_all`: the collected items together with the trace of
requests issued (url, params) in order; or the propagated fetch error; or
`fuelOut` when the page chain outruns the fuel (the Python loop has no page
cap, so fuel only bounds the model). -/
inductive CollectResult where
  | ok (items : List J) (requests : List (J × Option Params))
  | error (msg : String)
  | fuelOut

/-- The `while True` loop of `collect_all`.  `fetch url params` is the
outcome of `get_json` for that request (the url is a `J` because Python
assigns the raw `nextLink` value to `next_url`).  After any page that
carries a truthy `nextLink`, the next request uses that link as url and
`None` as params. -/
def collect_all_aux (fetch : J → Option Params → GetResult) :
    Nat → J → Option Params → CollectResult
  | 0, _, _ => .fuelOut
  | fuel + 1, url, params =>
    match fetch url params with
    | .error msg => .error msg
    | .ok payload =>
      let items := pageItemsOf payload
      let nl := nextLinkOf payload
      if nl.truthy then
        match collect_all_aux fetch fuel nl none with
        | .ok rest reqs => .ok (items ++ rest) ((url, params) :: reqs)
        | r => r
      else
        .ok items [(url, params)]

/-- `collect_all(session, headers, params)`: the first request goes to
`f"{URL_BASE}{URL_PATH}"` with the caller's params. -/
def collect_all (fetch : J → Option Params → GetResult) (fuel : Nat)
    (urlBase : String) (params : Option Params) : CollectResult :=
  collect_all_aux fetch fuel (J.str (urlBase ++ URL_PATH)) params

/-! ## Contextual filter header -/

/-- Line 28 of the source: `USER_FILTER = ("").strip()` — `strip()` of the
empty literal, i.e. the empty string, hard-coded (the comment above it
promises `TV1_CONTEXTUAL_FILTER`, but no environment variable is
consulted). -/
def USER_FILTER : String := ""

/-- The `TMV1-Contextual-Filter` header value built in `run_once`: the
user filter verbatim when truthy, else the synthesized predicate.  The
synthesized string interpolates only `TV1_INDUSTRY`; the location clause is
the hard-coded literal `'No specified locations'` (`TV1_LOCATION` is read
from the environment at line 29 but never used). -/
def tmv1ContextualFilter (tv1_industry : String) : String :=
  if !USER_FILTER.isEmpty then USER_FILTER
  else
    "(location eq " ++ squote ++ "No specified locations" ++ squote ++ ") "
      ++ "and industry eq " ++ squote ++ tv1_industry ++ squote

/-! ## Polling orchestrator: `run_once` -/

/-- Terminal outcome of one `run_once` cycle: the `[OK]` return (bundle
count, object count, winning page size), the `[INFO] No STIX objects` early
return, or the exception raised after the ladder is exhausted. -/
inductive CycleOutcome where
  | importedOk (nBundles nObjs size : Nat)
  | emptyInfo (size : Nat)
  | raisedErr (msg : String)

/-- Observable behaviour of one cycle: which page sizes were actually
attempted (a `collect_all` call made), which bundles were successfully
imported (committed downstream, in order), and the terminal outcome. -/
structure RunResult where
  attempts : List Nat
  imported : List J
  outcome : CycleOutcome

/-- The `for b in bundles` import loop: `importR b` is `none` when the
external import call succeeds and `some msg` when it raises.  Returns the
bundles committed before the failure, and the failure message if any. -/
def importBundles (importR : J → Option String) :
    List J → List J × Option String
  | [] => ([], none)
  | b :: bs =>
    match importR b with
    | some e => ([], some e)
    | none =>
      let r := importBundles importR bs
      (b :: r.1, r.2)

/-- The `for size in fallback_sizes` loop of `run_once`.  `collectR format
size` is the outcome of `collect_all` for that candidate (`Except.error`
when it raises); `importR` is the external import call; `ids` is the
process-wide stream of `uuid4()` draws, `ctr` the number already consumed.
The whole candidate body sits in `try ... except Exception`, so an error
from either `collect_all` or the import loop is recorded as `last_err` and
the loop continues with the next size. -/
def runOnceAux (maxPer : Nat) (ids : Nat → String) (format : String)
    (collectR : String → Nat → Except String (List J))
    (importR : J → Option String) :
    List Nat → List Nat → Option String → Nat → RunResult
  | [], _, lastErr, _ =>
    { attempts := [], imported := [],
      outcome := .raisedErr (lastErr.getD "All attempts failed") }
  | size :: rest, tried, lastErr, ctr =>
    if size ∈ tried then
      runOnceAux maxPer ids format collectR importR rest tried lastErr ctr
    else
      match collectR format size with
      | .error e =>
        let r := runOnceAux maxPer ids format collectR importR rest
          (size :: tried) (some e) ctr
        { r with attempts := size :: r.attempts }
      | .ok collected =>
        match flatten_objects_from_items collected with
        | [] =>
          { attempts := [size], imported := [], outcome := .emptyInfo size }
        | o :: objs =>
          let bundles :=
            chunked_bundles maxPer (fun k => ids (ctr + k)) (o :: objs)
          let res := importBundles importR bundles
          match res.2 with
          | none =>
            { attempts := [size], imported := res.1,
              outcome := .importedOk bundles.length
                ((bundles.map (fun b => (bundleObjs b).length)).sum) size }
          | some e =>
            let r := runOnceAux maxPer ids format collectR importR rest
              (size :: tried) (some e) (ctr + bundles.length)
            { attempts := size :: r.attempts, imported := res.1 ++ r.imported,
              outcome := r.outcome }

/-- The fallback ladder: `[TOP_REPORT_DEFAULT, 200, 100, 50, 25, 10]`, with
the `tried` set deduplicating a repeated size. -/
def fallback_sizes (topDefault : Nat) : List Nat :=
  [topDefault, 200, 100, 50, 25, 10]

/-- `run_once(client)` from the fetch-and-import loop onward: the time
window, session and headers only parameterize `collectR`, and the response
format is fixed for the whole cycle (it is the module constant
`RESPONSE_FORMAT`; only the page size varies along the ladder). -/
def run_once (maxPer topDefault : Nat) (ids : Nat → String) (format : String)
    (collectR : String → Nat → Except String (List J))
    (importR : J → Option String) : RunResult :=
  runOnceAux maxPer ids format collectR importR (fallback_sizes topDefault)
    [] none 0

/-! ## Supporting lemmas -/

theorem chunksOf_nil (m : Nat) : chunksOf m [] = [] := rfl

/-- The result of `chunksOfAux` does not depend on the fuel, as long as the
fuel covers the list's length. -/
theorem chunksOfAux_fuel_eq (m : Nat) :
    ∀ (f1 : Nat), ∀ (f2 : Nat) (l : List J), l.length ≤ f1 → l.length ≤ f2 →
      chunksOfAux (m + 1) f1 l = chunksOfAux (m + 1) f2 l := by
  intro f1
  induction f1 with
  | zero =>
    intro f2 l h1 h2
    cases l with
    | nil => cases f2 <;> rfl
    | cons x xs => simp at h1
  | succ f1 ih =>
    intro f2 l h1 h2
    cases l with
    | nil => cases f2 <;> rfl
    | cons x xs =>
      cases f2 with
      | zero => simp at h2
      | succ f2 =>
        show (x :: xs.take m) :: chunksOfAux (m + 1) f1 (xs.drop m) =
          (x :: xs.take m) :: chunksOfAux (m + 1) f2 (xs.drop m)
        rw [ih f2 (xs.drop m) (by simp [List.length_drop]; simp at h1; omega)
          (by simp [List.length_drop]; simp at h2; omega)]

theorem chunksOf_cons (m : Nat) (x : J) (xs : List J) :
    chunksOf (m + 1) (x :: xs) =
      (x :: xs.take m) :: chunksOf (m + 1) (xs.drop m) := by
  show (x :: xs.take m) :: chunksOfAux (m + 1) xs.length (xs.drop m) =
    (x :: xs.take m) :: chunksOf (m + 1) (xs.drop m)
  rw [chunksOfAux_fuel_eq m xs.length (xs.drop m).length (xs.drop m)
    (by simp [List.length_drop]) (Nat.le_refl _)]
  rfl

theorem chunksOf_ne_nil (m : Nat) (x : J) (xs : List J) :
    chunksOf (m + 1) (x :: xs) ≠ [] := by
  rw [chunksOf_cons]; simp

theorem chunksOf_flatten_aux (m : Nat) :
    ∀ (n : Nat) (l : List J), l.length ≤ n →
      (chunksOf (m + 1) l).flatten = l := by
  intro n
  induction n with
  | zero =>
    intro l h
    cases l with
    | nil => simp [chunksOf_nil]
    | cons x xs => simp at h
  | succ n ih =>
    intro l h
    cases l with
    | nil => simp [chunksOf_nil]
    | cons x xs =>
      rw [chunksOf_cons, List.flatten_cons,
        ih (xs.drop m) (by simp [List.length_drop]; simp at h; omega)]
      simp [List.cons_append, List.take_append_drop]

theorem chunksOf_flatten (m : Nat) (l : List J) :
    (chunksOf (m + 1) l).flatten = l :=
  chunksOf_flatten_aux m l.length l (Nat.le_refl _)

theorem chunksOf_length_aux (m : Nat) :
    ∀ (n : Nat) (l : List J), l.length ≤ n →
      (chunksOf (m + 1) l).length = (l.length + m) / (m + 1) := by
  intro n
  induction n with
  | zero =>
    intro l h
    cases l with
    | nil => simp [chunksOf_nil, Nat.div_eq_of_lt]
    | cons x xs => simp at h
  | succ n ih =>
    intro l h
    cases l with
    | nil => simp [chunksOf_nil, Nat.div_eq_of_lt]
    | cons x xs =>
      rw [chunksOf_cons, List.length_cons,
        ih (xs.drop m) (by simp [List.length_drop]; simp at h; omega)]
      rw [List.length_drop, List.length_cons]
      by_cases hc : xs.length ≤ m
      · have h0 : xs.length - m = 0 := by omega
        rw [h0, Nat.zero_add, Nat.div_eq_of_lt (by omega)]
        have : (xs.length + 1 + m) / (m + 1) = 1 := by
          apply Nat.div_eq_of_lt_le <;> omega
        omega
      · have h1 : xs.length - m + m = xs.length := by omega
        have h2 : xs.length + 1 + m = xs.length + (m + 1) := by omega
        rw [h1, h2, Nat.add_div_right _ (by omega)]

theorem chunksOf_mem_ne_nil_aux (m : Nat) :
    ∀ (n : Nat) (l : List J), l.length ≤ n →
      ∀ c ∈ chunksOf (m + 1) l, c ≠ [] := by
  intro n
  induction n with
  | zero =>
    intro l h c hc
    cases l with
    | nil => simp [chunksOf_nil] at hc
    | cons x xs => simp at h
  | succ n ih =>
    intro l h c hc
    cases l with
    | nil => simp [chunksOf_nil] at hc
    | cons x xs =>
      rw [chunksOf_cons] at hc
      rcases List.mem_cons.mp hc with h1 | h1
      · rw [h1]; simp
      · exact ih (xs.drop m) (by simp [List.length_drop]; simp at h; omega) c h1

theorem chunksOf_mem_ne_nil (m : Nat) (l : List J) :
    ∀ c ∈ chunksOf (m + 1) l, c ≠ [] :=
  chunksOf_mem_ne_nil_aux m l.length l (Nat.le_refl _)

theorem chunksOf_dropLast_length_aux (m : Nat) :
    ∀ (n : Nat) (l : List J), l.length ≤ n →
      ∀ c ∈ (chunksOf (m + 1) l).dropLast, c.length = m + 1 := by
  intro n
  induction n with
  | zero =>
    intro l h c hc
    cases l with
    | nil => simp [chunksOf_nil] at hc
    | cons x xs => simp at h
  | succ n ih =>
    intro l h c hc
    cases l with
    | nil => simp [chunksOf_nil] at hc
    | cons x xs =>
      rw [chunksOf_cons] at hc
      by_cases hd : xs.length ≤ m
      · rw [List.drop_eq_nil_of_le hd, chunksOf_nil] at hc
        simp at hc
      · cases hrec : xs.drop m with
        | nil =>
          rw [List.drop_eq_nil_iff] at hrec
          omega
        | cons y ys =>
          rw [hrec] at hc
          rw [List.dropLast_cons_of_ne_nil (chunksOf_ne_nil m y ys)] at hc
          rcases List.mem_cons.mp hc with h1 | h1
          · rw [h1]
            simp [List.length_take]
            omega
          · have := ih (xs.drop m) (by simp [List.length_drop]; simp at h; omega) c
            rw [hrec] at this
            exact this h1

theorem chunksOf_dropLast_length (m : Nat) (l : List J) :
    ∀ c ∈ (chunksOf (m + 1) l).dropLast, c.length = m + 1 :=
  chunksOf_dropLast_length_aux m l.length l (Nat.le_refl _)

theorem bundleObjs_mkBundle (u : String) (c : List J) :
    bundleObjs (mkBundle u c) = c := rfl

theorem bundleId_mkBundle (u : String) (c : List J) :
    bundleId (mkBundle u c) = some (.str ("bundle--" ++ u)) := rfl

theorem flattenOne_mkBundle (u : String) (c : List J) :
    flattenOne (mkBundle u c) = c := rfl

theorem bundlesFrom_map_objs (ids : Nat → String) :
    ∀ (i : Nat) (cs : List (List J)), (∀ c ∈ cs, c ≠ []) →
      (bundlesFrom ids i cs).map bundleObjs = cs := by
  intro i cs
  induction cs generalizing i with
  | nil => intro _; rfl
  | cons c cs ih =>
    intro h
    cases c with
    | nil => exact absurd rfl (h [] (by simp))
    | cons x c' =>
      rw [bundlesFrom, List.map_cons, bundleObjs_mkBundle,
        ih (i + 1) (fun d hd => h d (by simp [hd]))]

theorem bundlesFrom_length (ids : Nat → String) :
    ∀ (i : Nat) (cs : List (List J)), (∀ c ∈ cs, c ≠ []) →
      (bundlesFrom ids i cs).length = cs.length := by
  intro i cs h
  have := congrArg List.length (bundlesFrom_map_objs ids i cs h)
  simpa using this

theorem bundlesFrom_map_id (ids : Nat → String) :
    ∀ (i : Nat) (cs : List (List J)), (∀ c ∈ cs, c ≠ []) →
      (bundlesFrom ids i cs).map bundleId =
        (List.range' i cs.length).map
          (fun k => some (J.str ("bundle--" ++ ids k))) := by
  intro i cs
  induction cs generalizing i with
  | nil => intro _; rfl
  | cons c cs ih =>
    intro h
    cases c with
    | nil => exact absurd rfl (h [] (by simp))
    | cons x c' =>
      rw [bundlesFrom, List.map_cons, bundleId_mkBundle, List.length_cons,
        List.range'_succ, List.map_cons,
        ih (i + 1) (fun d hd => h d (by simp [hd]))]

theorem flatten_bundlesFrom (ids : Nat → String) :
    ∀ (i : Nat) (cs : List (List J)), (∀ c ∈ cs, c ≠ []) →
      flatten_objects_from_items (bundlesFrom ids i cs) = cs.flatten := by
  intro i cs
  induction cs generalizing i with
  | nil => intro _; rfl
  | cons c cs ih =>
    intro h
    cases c with
    | nil => exact absurd rfl (h [] (by simp))
    | cons x c' =>
      rw [bundlesFrom]
      show flattenOne (mkBundle (ids i) (x :: c')) ++
          flatten_objects_from_items (bundlesFrom ids (i + 1) cs) = _
      rw [flattenOne_mkBundle, ih (i + 1) (fun d hd => h d (by simp [hd])),
        List.flatten_cons]

/-- Prefixing with `"bundle--"` keeps distinct uuids distinct. -/
theorem bundle_prefix_inj (a b : String)
    (h : "bundle--" ++ a = "bundle--" ++ b) : a = b :=
  String.ext (by simpa using congrArg String.data h)

/-- A server-side page chain as `collect_all` experiences it: starting from
`(url, params)`, `fetch` yields the pages in order; every page but the last
carries a non-empty string `nextLink`, the last page's `nextLink` is falsy
(absent, null or empty), and each follow-up request is the previous page's
link with `params = none`. -/
inductive ChainOf (fetch : J → Option Params → GetResult) :
    J → Option Params → List J → List String → Prop where
  | last (url : J) (params : Option Params) (p : J) :
      fetch url params = .ok p → (nextLinkOf p).truthy = false →
      ChainOf fetch url params [p] []
  | step (url : J) (params : Option Params) (p : J) (link : String)
      (rest : List J) (links : List String) :
      fetch url params = .ok p → nextLinkOf p = .str link → link ≠ "" →
      ChainOf fetch (.str link) none rest links →
      ChainOf fetch url params (p :: rest) (link :: links)

/-- A chain of `N` pages makes `collect_all_aux` issue exactly the `N`
requests of the chain (first the caller's, then each `nextLink` with no
params) and return the concatenation of every page's items in page order. -/
theorem collect_all_aux_chain (fetch : J → Option Params → GetResult)
    (url : J) (params : Option Params) (pages : List J) (links : List String)
    (hchain : ChainOf fetch url params pages links) :
    ∀ fuel, pages.length ≤ fuel →
      collect_all_aux fetch fuel url params =
        .ok (pages.flatMap pageItemsOf)
          ((url, params) ::
            links.map (fun l => ((J.str l : J), (none : Option Params)))) := by
  induction hchain with
  | last url params p hf hnl =>
    intro fuel hfuel
    match fuel, hfuel with
    | f + 1, _ =>
      simp only [collect_all_aux, hf, hnl]
      simp [pageItemsOf]
  | step url params p link rest links hf hnl hne _ ih =>
    intro fuel hfuel
    match fuel, hfuel with
    | f + 1, hfuel =>
      have hrest : rest.length ≤ f := by simp at hfuel; omega
      simp only [collect_all_aux, hf, hnl]
      have hemp : link.isEmpty = false := by
        cases hh : link.isEmpty
        · rfl
        · exact absurd ((String.isEmpty_iff link).mp hh) hne
      have htr : (J.str link).truthy = true := by
        simp [J.truthy, hemp]
      simp only [htr, if_true, ih f hrest]
      simp

/-! ## Claims -/

/-- Per-attempt responses: 503 on the first four GETs, then 200 with a JSON
body. -/
def respond503then200 : Nat → FetchOutcome := fun i =>
  if i < 4 then .ok ⟨503, "text/plain", J.null, "busy"⟩
  else .ok ⟨200, "application/json", J.arr [], ""⟩

/-- Per-attempt responses: 503 on every GET. -/
def respondAll503 : Nat → FetchOutcome := fun _ =>
  .ok ⟨503, "text/plain", J.null, "busy"⟩

/-- C6: a `get_json` call whose GET returns 503 on the first four attempts
and 200 on the fifth succeeds using exactly 5 attempts, having slept the
backoff delays 1, 2, 4, 8; a call returning 503 on all five attempts fails
with `Max retries exceeded`. -/
theorem C6_retry_backoff_ladder :
    get_json respond503then200 5 = (.ok (J.arr []), 5, [1, 2, 4, 8]) ∧
    get_json respondAll503 5 =
      (.error "Max retries exceeded", 5, [1, 2, 4, 8, 16]) :=
  ⟨rfl, rfl⟩

/-- Per-attempt responses: the GET raises a connection-reset exception every
time. -/
def respondConnReset : Nat → FetchOutcome := fun _ =>
  .netErr "connection reset by peer"

/-- C2, counterexample: a network-level failure on the very first GET is NOT
retried — `get_json` ends after exactly 1 attempt with no backoff sleeps and
the exception propagates (claim says it would retry with backoff up to the
bounded attempt count). -/
theorem C2_counterexample :
    get_json respondConnReset 5 = (.error "connection reset by peer", 1, []) :=
  rfl

/-- C2, amended: a network-level failure (exception from `session.get`) is
not caught by `get_json`: whatever the later attempts would have returned,
the first such failure propagates immediately, after exactly one attempt and
zero backoff sleeps.  (Only HTTP statuses 429/500/502/503/504 are
retryable.) -/
theorem C2_network_error_propagates (respond : Nat → FetchOutcome)
    (msg : String) (h : respond 0 = .netErr msg) :
    get_json respond 5 = (.error msg, 1, []) := by
  simp [get_json, getJsonAux, h]

/-- C2, witness for the amended theorem at a concrete responder. -/
theorem C2_witness :
    respondConnReset 0 = .netErr "connection reset by peer" ∧
    get_json respondConnReset 5 =
      (.error "connection reset by peer", 1, []) :=
  ⟨rfl, C2_network_error_propagates respondConnReset "connection reset by peer"
    rfl⟩

/-- C3: the code contradicts its own comments.  `USER_FILTER` is hard-coded
to the empty string (the configured `TV1_CONTEXTUAL_FILTER` is never read),
so the verbatim branch is dead, and the synthesized header hard-codes the
location clause `'No specified locations'`: with `TV1_LOCATION = "France"`
and `TV1_INDUSTRY = "Banking"`, the header does not contain `France` (the
claim requires the configured location to appear) though it does contain
`Banking`. -/
theorem C3_location_ignored :
    USER_FILTER = "" ∧
    tmv1ContextualFilter "Banking" =
      "(location eq " ++ squote ++ "No specified locations" ++ squote
        ++ ") " ++ "and industry eq " ++ squote ++ "Banking" ++ squote ∧
    strContains (tmv1ContextualFilter "Banking") "France" = false ∧
    strContains (tmv1ContextualFilter "Banking") "Banking" = true :=
  ⟨rfl, rfl, rfl, rfl⟩

/-- C9: an item that matches both the envelope shape (rule A) and the
direct-`objects` shape (rule D) contributes exactly the envelope's objects;
the item's own `objects` field is ignored and nothing is emitted twice
(first-match-wins, not cumulative). -/
theorem C9_envelope_wins (fields envFields : List (String × J)) (E D : List J)
    (rest : List J)
    (henv : (J.obj fields).lookup "envelope" = some (J.obj envFields))
    (hE : (J.obj envFields).lookup "objects" = some (.arr E))
    (_hD : (J.obj fields).lookup "objects" = some (.arr D)) :
    flatten_objects_from_items (J.obj fields :: rest) =
      E ++ flatten_objects_from_items rest := by
  have h1 : flattenOne (J.obj fields) = E := by
    simp only [flattenOne, henv, hE]
  rw [flatten_objects_from_items, List.flatMap_cons, h1]
  rfl

/-- C9, witness: a concrete item carrying both an envelope with objects
`[1]` and a direct `objects` list `[2]` flattens to `[1]` alone. -/
theorem C9_witness :
    flatten_objects_from_items
        [J.obj [("envelope", J.obj [("objects", J.arr [J.num 1])]),
                ("objects", J.arr [J.num 2])]] =
      [J.num 1] ++ flatten_objects_from_items [] :=
  C9_envelope_wins
    [("envelope", J.obj [("objects", J.arr [J.num 1])]),
     ("objects", J.arr [J.num 2])]
    [("objects", J.arr [J.num 1])] [J.num 1] [J.num 2] [] rfl rfl rfl

/-- C7: for `M ≥ 1`, a non-empty object list of length `K` and an injective
uuid supply, `chunked_bundles` yields exactly `⌈K/M⌉` bundles whose `objects`
fields concatenate back to the input in order (contiguous, order-preserving
chunks), with every bundle but the last holding exactly `M` objects and all
bundle ids distinct; the empty list yields no bundles. -/
theorem C7_chunked_bundles_shape (M : Nat) (ids : Nat → String) (objs : List J)
    (hM : 1 ≤ M) (hne : objs ≠ []) (hinj : Function.Injective ids) :
    (chunked_bundles M ids objs).length = (objs.length + M - 1) / M ∧
    ((chunked_bundles M ids objs).map bundleObjs).flatten = objs ∧
    (∀ b ∈ (chunked_bundles M ids objs).dropLast, (bundleObjs b).length = M) ∧
    ((chunked_bundles M ids objs).map bundleId).Nodup ∧
    chunked_bundles M ids [] = [] := by
  obtain ⟨m, rfl⟩ : ∃ m, M = m + 1 := ⟨M - 1, by omega⟩
  obtain ⟨o, os, rfl⟩ : ∃ o os, objs = o :: os := by
    cases objs with
    | nil => exact absurd rfl hne
    | cons o os => exact ⟨o, os, rfl⟩
  have hcne := chunksOf_mem_ne_nil m (o :: os)
  have hbundles : chunked_bundles (m + 1) ids (o :: os) =
      bundlesFrom ids 0 (chunksOf (m + 1) (o :: os)) := rfl
  refine ⟨?_, ?_, ?_, ?_, rfl⟩
  · rw [hbundles, bundlesFrom_length ids 0 _ hcne, chunksOf_length_aux m
      (o :: os).length _ (Nat.le_refl _)]
    simp
  · rw [hbundles, bundlesFrom_map_objs ids 0 _ hcne, chunksOf_flatten]
  · intro b hb
    have hobjs_mem : bundleObjs b ∈
        ((bundlesFrom ids 0 (chunksOf (m + 1) (o :: os))).map
          bundleObjs).dropLast := by
      rw [← List.map_dropLast]
      exact List.mem_map_of_mem bundleObjs hb
    rw [bundlesFrom_map_objs ids 0 _ hcne] at hobjs_mem
    exact chunksOf_dropLast_length m (o :: os) _ hobjs_mem
  · rw [hbundles, bundlesFrom_map_id ids 0 _ hcne]
    apply List.Nodup.map _ (List.nodup_range' 0 _)
    intro a b hab
    simp only [Option.some.injEq, J.str.injEq] at hab
    exact hinj (bundle_prefix_inj (ids a) (ids b) hab)

/-- An injective uuid supply for concrete instantiations: `n` copies of
`a`. -/
def wIds : Nat → String := fun n => String.mk (List.replicate n 'a')

theorem wIds_injective : Function.Injective wIds := by
  intro a b h
  have := congrArg (fun s => s.data.length) h
  simpa [wIds] using this

/-- C7, witness at `M = 2`, three objects. -/
theorem C7_witness :
    1 ≤ 2 ∧ ([J.num 1, J.num 2, J.num 3] : List J) ≠ [] ∧
    ((chunked_bundles 2 wIds [J.num 1, J.num 2, J.num 3]).length =
        (([J.num 1, J.num 2, J.num 3] : List J).length + 2 - 1) / 2 ∧
      ((chunked_bundles 2 wIds [J.num 1, J.num 2, J.num 3]).map
          bundleObjs).flatten = [J.num 1, J.num 2, J.num 3] ∧
      (∀ b ∈ (chunked_bundles 2 wIds [J.num 1, J.num 2, J.num 3]).dropLast,
        (bundleObjs b).length = 2) ∧
      ((chunked_bundles 2 wIds [J.num 1, J.num 2, J.num 3]).map
          bundleId).Nodup ∧
      chunked_bundles 2 wIds [] = []) :=
  ⟨by decide, by simp,
    C7_chunked_bundles_shape 2 wIds [J.num 1, J.num 2, J.num 3] (by decide)
      (by simp) wIds_injective⟩

/-- C8: for `M ≥ 1` and any non-empty object sequence, packaging into
bundles and re-flattening with the normalizer reproduces the input exactly
(each produced bundle matches the normalizer's direct-bundle rule, so
`flatten_objects_from_items ∘ chunked_bundles = id` on non-empty lists). -/
theorem C8_roundtrip (M : Nat) (ids : Nat → String) (objs : List J)
    (hM : 1 ≤ M) (hne : objs ≠ []) :
    flatten_objects_from_items (chunked_bundles M ids objs) = objs := by
  obtain ⟨m, rfl⟩ : ∃ m, M = m + 1 := ⟨M - 1, by omega⟩
  obtain ⟨o, os, rfl⟩ : ∃ o os, objs = o :: os := by
    cases objs with
    | nil => exact absurd rfl hne
    | cons o os => exact ⟨o, os, rfl⟩
  have hbundles : chunked_bundles (m + 1) ids (o :: os) =
      bundlesFrom ids 0 (chunksOf (m + 1) (o :: os)) := rfl
  rw [hbundles, flatten_bundlesFrom ids 0 _ (chunksOf_mem_ne_nil m (o :: os)),
    chunksOf_flatten]

/-- C8, witness at `M = 2`, three objects. -/
theorem C8_witness :
    1 ≤ 2 ∧ ([J.num 1, J.num 2, J.num 3] : List J) ≠ [] ∧
    flatten_objects_from_items
        (chunked_bundles 2 wIds [J.num 1, J.num 2, J.num 3]) =
      [J.num 1, J.num 2, J.num 3] :=
  ⟨by decide, by simp,
    C8_roundtrip 2 wIds [J.num 1, J.num 2, J.num 3] (by decide) (by simp)⟩

/-- A chain of pages has one more page than it has links. -/
theorem ChainOf_length (fetch : J → Option Params → GetResult) (url : J)
    (params : Option Params) (pages : List J) (links : List String)
    (h : ChainOf fetch url params pages links) :
    pages.length = links.length + 1 := by
  induction h with
  | last => rfl
  | step _ _ _ _ _ _ _ _ _ _ ih => simp [ih]

/-- On a page recognized by `extract_items`, the collector appends exactly
the extracted array. -/
theorem pageItemsOf_of_isSome (p : J) (h : (extract_items p).isSome) :
    pageItemsOf p = (extract_items p).getD [] := by
  cases hx : extract_items p with
  | none => rw [hx] at h; simp at h
  | some arr => simp [pageItemsOf, hx]

/-- C5: for a chain of `N` pages in which every page but the last carries a
non-null `nextLink` and every page is recognized by `extract_items`,
`collect_all` returns the concatenation of all pages' extracted items in
page-arrival order and issues exactly `N` requests: the first to the feed
url with the caller's params, and each later one to the previous page's
`nextLink` verbatim with `params = None`. -/
theorem C5_collect_all_pagination (fetch : J → Option Params → GetResult)
    (urlBase : String) (params : Params) (pages : List J)
    (links : List String) (fuel : Nat)
    (hchain : ChainOf fetch (J.str (urlBase ++ URL_PATH)) (some params)
      pages links)
    (hrec : ∀ p ∈ pages, (extract_items p).isSome)
    (hfuel : pages.length ≤ fuel) :
    collect_all fetch fuel urlBase (some params) =
      .ok (pages.flatMap fun p => (extract_items p).getD [])
        ((J.str (urlBase ++ URL_PATH), some params) ::
          links.map fun l => ((J.str l : J), (none : Option Params))) ∧
    ((J.str (urlBase ++ URL_PATH), some params) ::
        links.map fun l => ((J.str l : J), (none : Option Params))).length =
      pages.length := by
  constructor
  · rw [collect_all,
      collect_all_aux_chain fetch _ _ pages links hchain fuel hfuel]
    have : pages.flatMap pageItemsOf =
        pages.flatMap fun p => (extract_items p).getD [] :=
      List.flatMap_congr fun p hp => pageItemsOf_of_isSome p (hrec p hp)
    rw [this]
  · simp [ChainOf_length fetch _ _ pages links hchain]

/-- First demo page: two items, with a `nextLink` cursor. -/
def demoPage1 : J :=
  J.obj [("value", .arr [J.num 1, J.num 2]),
         ("nextLink", .str "https://feed.example/next?skip=2")]

/-- Second demo page: one item, end of chain. -/
def demoPage2 : J :=
  J.obj [("value", .arr [J.num 3]), ("nextLink", .null)]

/-- A deterministic server for the two-page demo chain. -/
def demoFetch : J → Option Params → GetResult := fun url params =>
  match url, params with
  | .str u, some _ =>
    if u = "https://api.eu.xdr.trendmicro.com" ++ URL_PATH then .ok demoPage1
    else .error "HTTP 404"
  | .str u, none =>
    if u = "https://feed.example/next?skip=2" then .ok demoPage2
    else .error "HTTP 404"
  | _, _ => .error "HTTP 404"

/-- The demo chain: page 1 at the feed url, page 2 at the cursor. -/
theorem demoChain :
    ChainOf demoFetch
      (J.str ("https://api.eu.xdr.trendmicro.com" ++ URL_PATH))
      (some [("topReport", "100")]) [demoPage1, demoPage2]
      ["https://feed.example/next?skip=2"] := by
  refine ChainOf.step _ _ _ _ _ _ rfl rfl (by decide) ?_
  exact ChainOf.last _ _ _ rfl rfl

/-- C5, witness: on the two-page demo chain, `collect_all` returns items
`[1, 2, 3]` and the two requests of the chain. -/
theorem C5_witness :
    collect_all demoFetch 2 "https://api.eu.xdr.trendmicro.com"
        (some [("topReport", "100")]) =
      .ok [J.num 1, J.num 2, J.num 3]
        [(J.str ("https://api.eu.xdr.trendmicro.com" ++ URL_PATH),
            some [("topReport", "100")]),
         (J.str "https://feed.example/next?skip=2", none)] := by
  have h := C5_collect_all_pagination demoFetch
    "https://api.eu.xdr.trendmicro.com" [("topReport", "100")]
    [demoPage1, demoPage2] ["https://feed.example/next?skip=2"] 2 demoChain
    (by decide) (by decide)
  simpa using h.1

/-- A JSON value that is neither a list nor a dict (a bare string, number or
null). -/
def isScalar : J → Bool
  | .arr _ => false
  | .obj _ => false
  | _ => true

/-- A scalar page contributes no items to the collector. -/
theorem pageItemsOf_scalar (p : J) (h : isScalar p = true) :
    pageItemsOf p = [] := by
  cases p <;> simp_all [isScalar, pageItemsOf, extract_items]

/-- C10: when the last fetched page's JSON body is neither a list nor a dict
(e.g. a bare string or number), `collect_all` appends nothing for that page,
raises no error, and pagination terminates at once: it returns exactly the
items collected from the earlier pages.  (A scalar page always ends the
chain, since `payload.get("nextLink")` is `None` for non-dicts.) -/
theorem C10_scalar_page_terminates (fetch : J → Option Params → GetResult)
    (urlBase : String) (params : Params) (pages : List J) (p : J)
    (links : List String) (fuel : Nat)
    (hchain : ChainOf fetch (J.str (urlBase ++ URL_PATH)) (some params)
      (pages ++ [p]) links)
    (hscalar : isScalar p = true)
    (hfuel : pages.length + 1 ≤ fuel) :
    collect_all fetch fuel urlBase (some params) =
      .ok (pages.flatMap pageItemsOf)
        ((J.str (urlBase ++ URL_PATH), some params) ::
          links.map fun l => ((J.str l : J), (none : Option Params))) := by
  rw [collect_all, collect_all_aux_chain fetch _ _ (pages ++ [p]) links hchain
    fuel (by simp; omega)]
  rw [List.flatMap_append]
  simp [pageItemsOf_scalar p hscalar]

/-- A server answering the feed url with a recognized page whose cursor
leads to a bare-string page. -/
def demoFetchScalar : J → Option Params → GetResult := fun url params =>
  match url, params with
  | .str u, some _ =>
    if u = "https://api.eu.xdr.trendmicro.com" ++ URL_PATH then .ok demoPage1
    else .error "HTTP 404"
  | .str u, none =>
    if u = "https://feed.example/next?skip=2" then .ok (J.str "oops")
    else .error "HTTP 404"
  | _, _ => .error "HTTP 404"

/-- The demo chain ending in a bare-string page. -/
theorem demoChainScalar :
    ChainOf demoFetchScalar
      (J.str ("https://api.eu.xdr.trendmicro.com" ++ URL_PATH))
      (some [("topReport", "100")]) [demoPage1, J.str "oops"]
      ["https://feed.example/next?skip=2"] := by
  refine ChainOf.step _ _ _ _ _ _ rfl rfl (by decide) ?_
  exact ChainOf.last _ _ _ rfl rfl

/-- C10, witness: the bare-string second page contributes nothing and ends
pagination; only page 1's items are returned. -/
theorem C10_witness :
    collect_all demoFetchScalar 2 "https://api.eu.xdr.trendmicro.com"
        (some [("topReport", "100")]) =
      .ok [J.num 1, J.num 2]
        [(J.str ("https://api.eu.xdr.trendmicro.com" ++ URL_PATH),
            some [("topReport", "100")]),
         (J.str "https://feed.example/next?skip=2", none)] := by
  have h := C10_scalar_page_terminates demoFetchScalar
    "https://api.eu.xdr.trendmicro.com" [("topReport", "100")] [demoPage1]
    (J.str "oops") ["https://feed.example/next?skip=2"] 2 demoChainScalar
    rfl (by decide)
  simpa [pageItemsOf, extract_items, demoPage1] using h

/-- A simple uuid supply for the orchestrator scenarios: the decimal index
itself. -/
def cIds : Nat → String := fun n => toString n

/-- Per-candidate `collect_all` outcomes for the C1 scenario: page size 100
yields two raw-objects items, page size 200 yields one, everything else
fails. -/
def c1Collect : String → Nat → Except String (List J) := fun _ size =>
  if size = 100 then .ok [J.obj [("objects", .arr [J.num 1, J.num 2])]]
  else if size = 200 then .ok [J.obj [("objects", .arr [J.num 3])]]
  else .error "HTTP 400"

/-- An external import that raises on the bundle with id `bundle--1` and
succeeds on every other bundle. -/
def c1Import : J → Option String := fun b =>
  match bundleId b with
  | some (.str s) => if s = "bundle--1" then some "import failed" else none
  | _ => none

/-- C1, counterexample: with `MAX_OBJECTS_PER_BUNDLE = 1`, candidate 100
packages two bundles; the import of the second raises.  The claim says the
cycle then ends with an error report and no further ladder entry is tried —
but the orchestrator's `except Exception` catches the import failure, moves
on to candidate 200, re-fetches and re-imports, and the cycle ends with an
`[OK]` report.  (The first bundle does remain committed.) -/
theorem C1_counterexample :
    c1Import (mkBundle "1" [J.num 2]) = some "import failed" ∧
    run_once 1 100 cIds "taxiiEnvelope" c1Collect c1Import =
      { attempts := [100, 200],
        imported := [mkBundle "0" [J.num 1], mkBundle "2" [J.num 3]],
        outcome := .importedOk 1 1 200 } :=
  ⟨rfl, rfl⟩

/-- C1, amended: when the external import call raises on some bundle of a
candidate, the bundles imported before the failure remain committed, and the
orchestrator — far from ending the cycle — records the error and advances to
the next fallback-ladder entry within the same cycle (the error is raised at
cycle end only if every remaining entry also fails). -/
theorem C1_import_failure_advances (maxPer : Nat) (ids : Nat → String)
    (format : String) (collectR : String → Nat → Except String (List J))
    (importR : J → Option String) (size : Nat) (rest tried : List Nat)
    (lastErr : Option String) (ctr : Nat) (collected : List J) (o : J)
    (objs done : List J) (e : String)
    (hmem : size ∉ tried)
    (hcoll : collectR format size = .ok collected)
    (hflat : flatten_objects_from_items collected = o :: objs)
    (himp : importBundles importR
        (chunked_bundles maxPer (fun k => ids (ctr + k)) (o :: objs)) =
      (done, some e)) :
    runOnceAux maxPer ids format collectR importR (size :: rest) tried
        lastErr ctr =
      { attempts := size ::
          (runOnceAux maxPer ids format collectR importR rest (size :: tried)
            (some e)
            (ctr + (chunked_bundles maxPer (fun k => ids (ctr + k))
              (o :: objs)).length)).attempts,
        imported := done ++
          (runOnceAux maxPer ids format collectR importR rest (size :: tried)
            (some e)
            (ctr + (chunked_bundles maxPer (fun k => ids (ctr + k))
              (o :: objs)).length)).imported,
        outcome :=
          (runOnceAux maxPer ids format collectR importR rest (size :: tried)
            (some e)
            (ctr + (chunked_bundles maxPer (fun k => ids (ctr + k))
              (o :: objs)).length)).outcome } := by
  rw [runOnceAux, if_neg hmem, hcoll]
  simp only [hflat, himp]

/-- C1, witness for the amended theorem on the concrete C1 scenario. -/
theorem C1_witness :
    (100 : Nat) ∉ ([] : List Nat) ∧
    runOnceAux 1 cIds "taxiiEnvelope" c1Collect c1Import [100, 200] [] none
        0 =
      { attempts := [100, 200],
        imported := [mkBundle "0" [J.num 1], mkBundle "2" [J.num 3]],
        outcome := .importedOk 1 1 200 } := by
  refine ⟨by simp, ?_⟩
  have h := C1_import_failure_advances 1 cIds "taxiiEnvelope" c1Collect
    c1Import 100 [200] [] none 0
    [J.obj [("objects", .arr [J.num 1, J.num 2])]] (J.num 1) [J.num 2]
    [mkBundle "0" [J.num 1]] "import failed" (by simp) rfl rfl rfl
  rw [h]
  rfl

/-- Per-candidate `collect_all` outcomes for the C4 scenario: page size 100
returns an empty page list, page size 200 would return a recognized item,
everything else fails. -/
def c4Collect : String → Nat → Except String (List J) := fun _ size =>
  if size = 100 then .ok []
  else if size = 200 then .ok [J.obj [("objects", .arr [J.num 7])]]
  else .error "HTTP 400"

/-- C4, counterexample: candidate 100 succeeds with zero recognized STIX
objects, and even though the next candidate (200) would have yielded a
non-empty recognized result, the cycle terminates at once with the `[INFO]`
outcome and only one attempt made — refuting "continuing to the next
candidate until one yields a non-empty, recognized result or the ladder is
exhausted".  (The ladder also varies only the page size; the response format
is the fixed cycle-wide `format` argument.) -/
theorem C4_counterexample :
    c4Collect "taxiiEnvelope" 200 = .ok [J.obj [("objects", .arr [J.num 7])]] ∧
    flatten_objects_from_items [J.obj [("objects", .arr [J.num 7])]] =
      [J.num 7] ∧
    run_once 5000 100 cIds "taxiiEnvelope" c4Collect (fun _ => none) =
      { attempts := [100], imported := [], outcome := .emptyInfo 100 } :=
  ⟨rfl, rfl, rfl⟩

/-- C4, amended: within one cycle the orchestrator tries an ordered ladder
of page-size candidates (the response format is fixed for the cycle),
advancing to the next candidate only when the current attempt raises an
error; a candidate that returns without raising ends the cycle even when it
yields zero recognized objects; an exhausted ladder ends the cycle raising
the last recorded error. -/
theorem C4_ladder_advances_only_on_error (maxPer : Nat) (ids : Nat → String)
    (format : String) (collectR : String → Nat → Except String (List J))
    (importR : J → Option String) (size : Nat) (rest tried : List Nat)
    (lastErr : Option String) (ctr : Nat) (hmem : size ∉ tried) :
    (∀ collected, collectR format size = .ok collected →
      flatten_objects_from_items collected = [] →
      runOnceAux maxPer ids format collectR importR (size :: rest) tried
          lastErr ctr =
        { attempts := [size], imported := [],
          outcome := .emptyInfo size }) ∧
    (∀ e, collectR format size = .error e →
      runOnceAux maxPer ids format collectR importR (size :: rest) tried
          lastErr ctr =
        { attempts := size ::
            (runOnceAux maxPer ids format collectR importR rest
              (size :: tried) (some e) ctr).attempts,
          imported := (runOnceAux maxPer ids format collectR importR rest
            (size :: tried) (some e) ctr).imported,
          outcome := (runOnceAux maxPer ids format collectR importR rest
            (size :: tried) (some e) ctr).outcome }) ∧
    runOnceAux maxPer ids format collectR importR [] tried lastErr ctr =
      { attempts := [], imported := [],
        outcome := .raisedErr (lastErr.getD "All attempts failed") } := by
  refine ⟨?_, ?_, rfl⟩
  · intro collected hcoll hflat
    rw [runOnceAux, if_neg hmem, hcoll]
    simp only [hflat]
  · intro e hcoll
    rw [runOnceAux, if_neg hmem, hcoll]

/-- C4, witness for the amended theorem on the concrete C4 scenario: the
empty-result candidate ends the cycle, and an erroring candidate advances
the ladder. -/
theorem C4_witness :
    (100 : Nat) ∉ ([] : List Nat) ∧
    runOnceAux 5000 cIds "taxiiEnvelope" c4Collect (fun _ => none)
        [100, 200] [] none 0 =
      { attempts := [100], imported := [], outcome := .emptyInfo 100 } ∧
    runOnceAux 5000 cIds "taxiiEnvelope" c4Collect (fun _ => none)
        [50, 200] [] none 0 =
      { attempts := [50, 200],
        imported := [mkBundle "0" [J.num 7]],
        outcome := .importedOk 1 1 200 } := by
  refine ⟨by simp, ?_, ?_⟩
  · exact (C4_ladder_advances_only_on_error 5000 cIds "taxiiEnvelope"
      c4Collect (fun _ => none) 100 [200] [] none 0 (by simp)).1 [] rfl rfl
  · have h := (C4_ladder_advances_only_on_error 5000 cIds "taxiiEnvelope"
      c4Collect (fun _ => none) 50 [200] [] none 0 (by simp)).2.1 "HTTP 400"
      rfl
    rw [h]
    rfl
